import Mathlib

/-!
Verification of the kayak launch recommendation engine
(`recommendation_engine.py` / `utils.py`).

Shallow embedding conventions:
* Python floats become `ℚ` (all arithmetic in the engine is exact decimal
  arithmetic on the inputs; no claim here depends on binary rounding).
* `datetime` values become `Timestamp` records carrying an absolute day
  number (`day`, fixing chronological order and subtraction) together with
  the calendar day-of-month (`dom`, what Python's `.day` attribute reads),
  an hour and a minute.  All data in the program is at minute resolution
  (ferry departures are built with `replace(hour=.., minute=..)`), so time
  differences are integer minutes.
* pandas DataFrames become lists of sample records; boolean-mask filtering
  becomes `List.filter`, `.iloc[0]` becomes `List.head?` where guarded and
  a propagated failure (`none`) where an empty frame would raise.
* A function that can raise returns `Option`; `none` models an uncaught
  Python exception (IndexError / ValueError).
* `datetime.now()` — hidden state read by `ferry_time_proximity` when its
  argument is a string — is made explicit as a `now : Timestamp` parameter.
-/

/-- A `datetime` value: `day` is an absolute (chronological) day number,
`dom` the day of the month (Python's `.day`), plus hour and minute. -/
structure Timestamp where
  day : ℤ
  dom : ℤ
  hour : ℕ
  minute : ℕ
deriving DecidableEq, Repr

/-- Minutes since the epoch; models `datetime` subtraction
(`(a - b).total_seconds() / 60`, which is exact at minute resolution). -/
def Timestamp.toMinutes (t : Timestamp) : ℤ :=
  t.day * 1440 + (t.hour : ℤ) * 60 + (t.minute : ℤ)

/-- One row of the tide DataFrame: columns `time`, `height`. -/
structure TideSample where
  time : Timestamp
  height : ℚ
deriving DecidableEq, Repr

/-- One row of the current DataFrame: columns `time`, `speed` and the
optional `direction` column (degrees). -/
structure CurrentSample where
  time : Timestamp
  speed : ℚ
  direction : Option ℚ
deriving DecidableEq, Repr

/-- One row of the weather DataFrame: columns `time`, `wind_speed`,
`wind_direction`. -/
structure WeatherSample where
  time : Timestamp
  wind_speed : ℚ
  wind_direction : String
deriving DecidableEq, Repr

/-- One entry of the ferry schedule list: keys `departure_time`,
`direction` (the other keys are unused by the engine). -/
structure FerryDeparture where
  departure_time : Timestamp
  direction : String
deriving DecidableEq, Repr

/-- The per-hour output dictionary built by `get_launch_recommendations`. -/
structure HourlyRec where
  hour : ℕ
  start_time : String
  end_time : String
  tide_height : String
  tide_status : String
  current_speed : String
  current_direction : String
  wind_speed : String
  wind_direction : String
  ferry_status : String
  score : ℚ
  rating : String
deriving DecidableEq, Repr

/-! ### utils.py -/

/-- `utils.get_tide_status`. -/
def get_tide_status (height : ℚ) (previous_height : Option ℚ) : String :=
  match previous_height with
  | none => "steady"
  | some p =>
    if height > p then "rising"
    else if height < p then "falling"
    else "steady"

/-- `utils.get_optimal_tide_range`. -/
def get_optimal_tide_range : ℚ × ℚ := (4.0, 8.0)

/-- `utils.get_optimal_current_range`. -/
def get_optimal_current_range : ℚ × ℚ := (0.0, 1.73)

/-- `utils.get_optimal_wind_range`. -/
def get_optimal_wind_range : ℚ × ℚ := (0.0, 10.0)

/-- The `for ferry in ferry_schedule` loop of `ferry_time_proximity`:
`acc` is the current `(min_diff, direction)` state (`none` while
`min_diff == inf`); an entry replaces it only when `0 <= diff < min_diff`. -/
def findNextFerry (t : ℤ) : List FerryDeparture → Option (ℤ × String) → Option (ℤ × String)
  | [], acc => acc
  | f :: rest, none =>
    let diff := f.departure_time.toMinutes - t
    findNextFerry t rest (if 0 ≤ diff then some (diff, f.direction) else none)
  | f :: rest, some a =>
    let diff := f.departure_time.toMinutes - t
    findNextFerry t rest (if 0 ≤ diff ∧ diff < a.1 then some (diff, f.direction) else some a)

/-- Python's `min(l, key=key)`: a left fold keeping the current best and
replacing it only on a strictly smaller key (so ties keep the earlier
element); `none` on an empty list (where Python raises). -/
def pyMinBy {α : Type} (key : α → ℤ) : List α → Option α
  | [] => none
  | a :: rest =>
    some (rest.foldl (fun best x => if key x < key best then x else best) a)

/-- `utils.ferry_time_proximity`, after its string argument has been
converted to a `datetime` (the engine's conversion is `ferryQueryTime`
below).  Returns `(minutes_to_ferry, direction)`. -/
def ferry_time_proximity (time : Timestamp) (ferry_schedule : List FerryDeparture) :
    Option ℤ × Option String :=
  if ferry_schedule.isEmpty then (none, none)
  else
    match findNextFerry time.toMinutes ferry_schedule none with
    | some p => (some p.1, some p.2)
    | none =>
      let tomorrow_ferries :=
        ferry_schedule.filter fun f => decide (time.dom < f.departure_time.dom)
      match pyMinBy (fun f => f.departure_time.toMinutes) tomorrow_ferries with
      | some earliest =>
        (some (earliest.departure_time.toMinutes - time.toMinutes), some earliest.direction)
      | none => (none, none)

/-- `time = datetime.now().replace(hour=hours, minute=minutes, second=0,
microsecond=0)` for the engine's query string `f"{hour}:00"`: the calendar
date comes from the wall clock `now`, the time of day from `hour`. -/
def ferryQueryTime (now : Timestamp) (hour : ℕ) : Timestamp :=
  { day := now.day, dom := now.dom, hour := hour, minute := 0 }

/-! ### Specification-side definitions for ferry proximity (claim C3) -/

/-- First element of the list attaining the minimal key (spec wording:
minimum with ties broken in favor of the element encountered first). -/
def firstMinBy {α : Type} (key : α → ℤ) : List α → Option α
  | [] => none
  | a :: rest =>
    match firstMinBy key rest with
    | none => some a
    | some b => if key b < key a then some b else some a

/-- The signed minute deltas (departure − query), paired with directions. -/
def deltaPairs (t : ℤ) (sched : List FerryDeparture) : List (ℤ × String) :=
  sched.map fun f => (f.departure_time.toMinutes - t, f.direction)

/-- The non-negative deltas, in input order. -/
def upcomingPairs (t : ℤ) (sched : List FerryDeparture) : List (ℤ × String) :=
  (deltaPairs t sched).filter fun p => decide (0 ≤ p.1)

/-- `ferry_time_proximity` as the specification words it: the minimum
non-negative delta (first in input order on ties) with its direction;
failing that, the earliest departure whose day-of-month strictly exceeds
the query's, returning its (negative) delta; failing that `(none, none)`. -/
def ferrySpec (time : Timestamp) (sched : List FerryDeparture) :
    Option ℤ × Option String :=
  match firstMinBy Prod.fst (upcomingPairs time.toMinutes sched) with
  | some p => (some p.1, some p.2)
  | none =>
    match firstMinBy (fun f => f.departure_time.toMinutes)
        (sched.filter fun f => decide (time.dom < f.departure_time.dom)) with
    | some e => (some (e.departure_time.toMinutes - time.toMinutes), some e.direction)
    | none => (none, none)

/-! ### recommendation_engine.py -/

/-- Tide factor, lines 100–112: in-range → 1.0, linear falloff outside,
then the hard override `tide_height > 10.0 → 0.0`. -/
def tide_factor (tide_height : ℚ) : ℚ :=
  let optimal_tide_range := get_optimal_tide_range
  let tf :=
    if optimal_tide_range.1 ≤ tide_height ∧ tide_height ≤ optimal_tide_range.2 then
      1.0
    else if tide_height < optimal_tide_range.1 then
      1.0 - min 1.0 ((optimal_tide_range.1 - tide_height) / 4.0)
    else
      1.0 - min 1.0 ((tide_height - optimal_tide_range.2) / 4.0)
  if tide_height > 10.0 then 0.0 else tf

/-- Current factor, lines 114–122. -/
def current_factor (current_speed : ℚ) : ℚ :=
  let optimal_current_range := get_optimal_current_range
  if optimal_current_range.1 ≤ current_speed ∧ current_speed ≤ optimal_current_range.2 then
    1.0
  else if current_speed < optimal_current_range.1 then
    1.0
  else
    1.0 - min 1.0 ((current_speed - optimal_current_range.2) / 2.0)

/-- Wind factor, lines 124–132. -/
def wind_factor (wind_speed : ℚ) : ℚ :=
  let optimal_wind_range := get_optimal_wind_range
  if optimal_wind_range.1 ≤ wind_speed ∧ wind_speed ≤ optimal_wind_range.2 then
    1.0
  else if wind_speed < optimal_wind_range.1 then
    1.0
  else
    1.0 - min 1.0 ((wind_speed - optimal_wind_range.2) / 10.0)

/-- Ferry factor, lines 134–138. -/
def ferry_factor_of (min_to_ferry : Option ℤ) : ℚ :=
  match min_to_ferry with
  | some m => if m < 15 then 0.5 else 1.0
  | none => 1.0

/-- Rating thresholds, lines 148–154. -/
def rating_of (weighted_score : ℚ) : String :=
  if weighted_score ≥ 0.8 then "optimal"
  else if weighted_score ≥ 0.6 then "acceptable"
  else "not_recommended"

/-- Ferry status text, lines 87–96.  `int(min_to_ferry)` truncates toward
zero, the identity at the model's integer-minute resolution; a `None`
direction would render as the text "None" in the f-string. -/
def ferry_status_of (min_to_ferry : Option ℤ) (ferry_direction : Option String) : String :=
  match min_to_ferry with
  | some m =>
    let d := match ferry_direction with | some s => s | none => "None"
    if m < 15 then "Caution: " ++ d ++ " ferry in " ++ toString m ++ " minutes"
    else if m < 30 then d ++ " ferry in " ++ toString m ++ " minutes"
    else "No ferries soon"
  | none => "No ferry data"

/-- `f"{hour:02d}:00"` (for hour ≤ 99). -/
def hhmm (hour : ℕ) : String :=
  (if hour < 10 then "0" ++ toString hour else toString hour) ++ ":00"

/-- `f"{x:.1f}"`: one decimal digit.  Rounding at exact decimal ties
approximates the float formatting (which rounds the binary value
half-to-even); no input in the claims sits on such a tie. -/
def formatFixed1 (q : ℚ) : String :=
  let n : ℤ := round (q * 10)
  (if n < 0 then "-" else "") ++ toString (n.natAbs / 10) ++ "." ++ toString (n.natAbs % 10)

/-- The body of the `for hour in range(24)` loop, lines 47–172.
Result: `none` = this iteration raises an uncaught exception;
`some none` = `continue` (hour skipped); `some (some r)` = `r` appended. -/
def processHour (now : Timestamp) (tide : List TideSample) (current : List CurrentSample)
    (ferry : List FerryDeparture) (weather : List WeatherSample) (hour : ℕ) :
    Option (Option HourlyRec) :=
  match tide.head? with
  | none => none
  | some t0 =>
    let hour_time : Timestamp := { t0.time with hour := hour, minute := 0 }
    let tide_hour_data := tide.filter fun s => s.time.hour == hour
    match tide_hour_data.head? with
    | none => some none
    | some ts =>
      let tide_height := ts.height
      -- Python `(hour - 1) % 24` on a mathematical modulus; for `hour : ℕ`
      -- this equals `(hour + 23) % 24` (hour 0 wraps to 23).
      let previous_hour := (hour + 23) % 24
      let previous_tide_data := tide.filter fun s => s.time.hour == previous_hour
      let previous_height := previous_tide_data.head?.map (fun s => s.height)
      let tide_status := get_tide_status tide_height previous_height
      let current_hour_data := current.filter fun s => s.time.hour == hour
      match current_hour_data.head? with
      | none => some none
      | some cs =>
        let current_speed := cs.speed
        let current_direction_text :=
          match cs.direction with
          | some d => if 0 ≤ d ∧ d ≤ 180 then "flooding" else "ebbing"
          | none => "unknown"
        let weather_hour_data := weather.filter fun s => s.time.hour == hour
        let wsel : Option (Option WeatherSample) :=
          match weather_hour_data.head? with
          | some w => some (some w)
          | none =>
            match pyMinBy (fun x => |x.toMinutes - hour_time.toMinutes|)
                (weather.map (fun s => s.time)) with
            | none => none
            | some closest_hour =>
              match (weather.filter fun s => s.time == closest_hour).head? with
              | some w => some (some w)
              | none => some none
        match wsel with
        | none => none
        | some none => some none
        | some (some w) =>
          let wind_speed := w.wind_speed
          let wind_direction := w.wind_direction
          let fp := ferry_time_proximity (ferryQueryTime now hour) ferry
          let min_to_ferry := fp.1
          let ferry_status := ferry_status_of min_to_ferry fp.2
          let weighted_score :=
            tide_factor tide_height * 0.35 +
            current_factor current_speed * 0.3 +
            wind_factor wind_speed * 0.25 +
            ferry_factor_of min_to_ferry * 0.1
          some (some {
            hour := hour
            start_time := hhmm hour
            end_time := hhmm ((hour + 1) % 24)
            tide_height := formatFixed1 tide_height
            tide_status := tide_status
            current_speed := formatFixed1 current_speed
            current_direction := current_direction_text
            wind_speed := formatFixed1 wind_speed
            wind_direction := wind_direction
            ferry_status := ferry_status
            score := weighted_score
            rating := rating_of weighted_score })

/-- The loop over the given hours, collecting appended recommendations and
propagating an exception (`none`). -/
def runHours (now : Timestamp) (tide : List TideSample) (current : List CurrentSample)
    (ferry : List FerryDeparture) (weather : List WeatherSample) :
    List ℕ → Option (List HourlyRec)
  | [] => some []
  | h :: hs =>
    match processHour now tide current ferry weather h with
    | none => none
    | some none => runHours now tide current ferry weather hs
    | some (some r) =>
      match runHours now tide current ferry weather hs with
      | none => none
      | some l => some (r :: l)

/-- `recommendation_engine.get_launch_recommendations`.  `now` is the
wall clock read by `ferry_time_proximity`'s string conversion; a missing
series is `none` (a missing ferry list is `[]`, which is equally falsy in
the line-34 check); result `none` models an uncaught exception. -/
def get_launch_recommendations (now : Timestamp) (tide_data : Option (List TideSample))
    (current_data : Option (List CurrentSample)) (ferry_data : List FerryDeparture)
    (weather_data : Option (List WeatherSample)) : Option (List HourlyRec) :=
  match tide_data, current_data, weather_data with
  | some tide, some current, some weather =>
    if ferry_data.isEmpty then some []
    else runHours now tide current ferry_data weather (List.range 24)
  | _, _, _ => some []

/-! ### Specification-side definition for the tide factor (claim C2) -/

/-- The tide factor as the claim words it: `1` inside `[4, 8]`, linear
falloff `1 − min(1, d/4)` outside with `d` the overshoot beyond the nearer
bound, and a hard `0` only for heights strictly above `10`. -/
def tideFactorSpec (h : ℚ) : ℚ :=
  if 10 < h then 0
  else if 4 ≤ h ∧ h ≤ 8 then 1
  else 1 - min 1 ((if h < 4 then 4 - h else h - 8) / 4)

/-! ### Concrete inputs used by witnesses and counterexamples.
All timestamps are realizable `datetime`s: absolute day 100 with
day-of-month 9, day 101 with 10 (consecutive days in one month), and
day 100 = May 30 (dom 30) against day 129 = June 28 (dom 28) for the
cross-month pair. -/

def demoNow : Timestamp := ⟨100, 9, 10, 0⟩
def demoTide : List TideSample := [⟨⟨100, 9, 6, 0⟩, 6.0⟩]
def demoCurrent : List CurrentSample := [⟨⟨100, 9, 6, 0⟩, 0.8, some 90⟩]
def demoWeather : List WeatherSample := [⟨⟨100, 9, 6, 0⟩, 5.0, "NW"⟩]
def demoFerry : List FerryDeparture := [⟨⟨100, 9, 12, 0⟩, "Seattle"⟩]

/-- Late-night variant: the sample sits at hour 23, so the emitted window
wraps to an end time of 00:00. -/
def lateTide : List TideSample := [⟨⟨100, 9, 23, 0⟩, 6.0⟩]
def lateCurrent : List CurrentSample := [⟨⟨100, 9, 23, 0⟩, 0.8, some 90⟩]
def lateWeather : List WeatherSample := [⟨⟨100, 9, 23, 0⟩, 5.0, "NW"⟩]

/-- Inputs for the wall-clock dependence counterexample: data on day 100,
a ferry at 10:10 of day 100, tide/current/weather samples at hour 10. -/
def wallTide : List TideSample := [⟨⟨100, 9, 10, 0⟩, 6.0⟩]
def wallCurrent : List CurrentSample := [⟨⟨100, 9, 10, 0⟩, 0.8, some 90⟩]
def wallWeather : List WeatherSample := [⟨⟨100, 9, 10, 0⟩, 5.0, "NW"⟩]
def wallFerry : List FerryDeparture := [⟨⟨100, 9, 10, 10⟩, "Seattle"⟩]
def nowSameDay : Timestamp := ⟨100, 9, 0, 0⟩
def nowSameDayLater : Timestamp := ⟨100, 9, 5, 30⟩
def nowNextDay : Timestamp := ⟨101, 10, 0, 0⟩

/-- Cross-month pair for the next-day ferry fallback: the wall clock reads
June 28 (absolute day 129, dom 28) while the schedule was built for
May 30 (absolute day 100, dom 30), a strictly earlier date with a larger
day-of-month. -/
def staleNow : Timestamp := ⟨129, 28, 10, 0⟩
def staleFerry : List FerryDeparture := [⟨⟨100, 30, 8, 0⟩, "Seattle"⟩]

instance : Inhabited HourlyRec :=
  ⟨⟨0, "", "", "", "", "", "", "", "", "", 0, ""⟩⟩

/-- The list the engine returns on the demo inputs (it is `some` of this,
see the C1 witness). -/
def demoOut : List HourlyRec :=
  (get_launch_recommendations demoNow (some demoTide) (some demoCurrent) demoFerry
    (some demoWeather)).getD []

/-- The single recommendation on the demo inputs (hour 6). -/
def demoRec1 : HourlyRec := demoOut.headI

/-- The list the engine returns on the late-night inputs. -/
def lateOut : List HourlyRec :=
  (get_launch_recommendations demoNow (some lateTide) (some lateCurrent) demoFerry
    (some lateWeather)).getD []

/-- The single recommendation on the late-night inputs (hour 23). -/
def lateRec1 : HourlyRec := lateOut.headI

/-! ### Helper lemmas -/

/-- Combine a candidate minimum with the loop accumulator: the accumulator
wins ties (the loop only replaces it on a strictly smaller delta). -/
def nextAcc (p : ℤ × String) : Option (ℤ × String) → Option (ℤ × String)
  | none => some p
  | some a => if p.1 < a.1 then some p else some a

theorem upcomingPairs_cons (t : ℤ) (f : FerryDeparture) (rest : List FerryDeparture) :
    upcomingPairs t (f :: rest) =
      if 0 ≤ f.departure_time.toMinutes - t then
        (f.departure_time.toMinutes - t, f.direction) :: upcomingPairs t rest
      else upcomingPairs t rest := by
  simp only [upcomingPairs, deltaPairs, List.map_cons, List.filter_cons]
  by_cases h : 0 ≤ f.departure_time.toMinutes - t <;> simp [h]

theorem findNextFerry_characterization (t : ℤ) (l : List FerryDeparture) :
    ∀ acc, findNextFerry t l acc =
      match firstMinBy Prod.fst (upcomingPairs t l) with
      | none => acc
      | some p => nextAcc p acc := by
  induction l with
  | nil => intro acc; rfl
  | cons f rest ih =>
    intro acc
    rcases acc with _ | a <;> simp only [findNextFerry] <;> rw [upcomingPairs_cons]
    · by_cases h0 : 0 ≤ f.departure_time.toMinutes - t
      · rw [if_pos h0, if_pos h0, ih]
        simp only [firstMinBy]
        rcases hm : firstMinBy Prod.fst (upcomingPairs t rest) with _ | b
        · rfl
        · simp only [nextAcc]
          by_cases hb : b.1 < f.departure_time.toMinutes - t
          · simp [hb]
          · simp [hb]
      · rw [if_neg h0, if_neg h0, ih]
    · by_cases h0 : 0 ≤ f.departure_time.toMinutes - t ∧
          f.departure_time.toMinutes - t < a.1
      · rw [if_pos h0, if_pos (h0.1), ih]
        simp only [firstMinBy]
        rcases hm : firstMinBy Prod.fst (upcomingPairs t rest) with _ | b
        · simp only [nextAcc]
          simp [h0.2]
        · simp only [nextAcc]
          by_cases hb : b.1 < f.departure_time.toMinutes - t
          · have hba : b.1 < a.1 := by omega
            simp [hb, hba]
          · simp [hb, h0.2]
      · rw [if_neg h0, ih]
        by_cases h1 : 0 ≤ f.departure_time.toMinutes - t
        · rw [if_pos h1]
          simp only [firstMinBy]
          rcases hm : firstMinBy Prod.fst (upcomingPairs t rest) with _ | b
          · simp only [nextAcc]
            have hda : ¬ f.departure_time.toMinutes - t < a.1 := by omega
            simp [hda]
          · simp only [nextAcc]
            by_cases hb : b.1 < f.departure_time.toMinutes - t
            · simp [hb]
            · have hda : ¬ f.departure_time.toMinutes - t < a.1 := by omega
              have hba : ¬ b.1 < a.1 := by omega
              simp [hb, hda, hba]
        · rw [if_neg h1]

theorem foldl_min_characterization {α : Type} (key : α → ℤ) :
    ∀ (l : List α) (a : α),
      l.foldl (fun best x => if key x < key best then x else best) a =
        match firstMinBy key l with
        | none => a
        | some b => if key b < key a then b else a := by
  intro l
  induction l with
  | nil => intro a; rfl
  | cons x l' ih =>
    intro a
    simp only [List.foldl, firstMinBy]
    rw [ih]
    rcases hm : firstMinBy key l' with _ | b
    · simp
    · by_cases hxa : key x < key a
      · by_cases hbx : key b < key x
        · have hba : key b < key a := by omega
          simp [hxa, hbx, hba]
        · simp [hxa, hbx]
      · by_cases hbx : key b < key x
        · simp [hxa, hbx]
        · have hba : ¬ key b < key a := by omega
          simp [hxa, hbx, hba]

theorem pyMinBy_eq_firstMinBy {α : Type} (key : α → ℤ) (l : List α) :
    pyMinBy key l = firstMinBy key l := by
  cases l with
  | nil => rfl
  | cons a rest =>
    simp only [pyMinBy, firstMinBy]
    rw [foldl_min_characterization]
    rcases hm : firstMinBy key rest with _ | b
    · rfl
    · by_cases hba : key b < key a <;> simp [hba]

theorem firstMinBy_mem {α : Type} (key : α → ℤ) :
    ∀ (l : List α) (a : α), firstMinBy key l = some a → a ∈ l := by
  intro l
  induction l with
  | nil => intro a h; exact absurd h (by simp [firstMinBy])
  | cons x l' ih =>
    intro a h
    simp only [firstMinBy] at h
    rcases hm : firstMinBy key l' with _ | b <;> rw [hm] at h
    · simp at h
      simp [h]
    · by_cases hbx : key b < key x
      · simp [hbx] at h
        subst h
        exact List.mem_cons_of_mem x (ih b hm)
      · simp [hbx] at h
        simp [h]

theorem firstMinBy_eq_none {α : Type} (key : α → ℤ) (l : List α) :
    firstMinBy key l = none ↔ l = [] := by
  cases l with
  | nil => simp [firstMinBy]
  | cons x l' =>
    simp only [firstMinBy]
    rcases hm : firstMinBy key l' with _ | b
    · simp
    · by_cases hbx : key b < key x <;> simp [hbx]

/-- Claim C3 equality, as a reusable helper. -/
theorem ferry_prox_spec_eq (time : Timestamp) (sched : List FerryDeparture) :
    ferry_time_proximity time sched = ferrySpec time sched := by
  cases sched with
  | nil => rfl
  | cons f rest =>
    simp only [ferry_time_proximity, List.isEmpty_cons, ferrySpec, Bool.false_eq_true,
      if_false]
    rw [findNextFerry_characterization]
    rcases hm : firstMinBy Prod.fst (upcomingPairs time.toMinutes (f :: rest)) with _ | p
    · rw [pyMinBy_eq_firstMinBy]
    · rfl

theorem tide_factor_nonneg_le_one (h : ℚ) : 0 ≤ tide_factor h ∧ tide_factor h ≤ 1 := by
  simp only [tide_factor, get_optimal_tide_range]
  norm_num
  split_ifs with h10 hin hlo
  · norm_num
  · norm_num
  · have hx : (0:ℚ) ≤ (4 - h) / 4 := by linarith
    have h1 : min 1 ((4 - h) / 4) ≤ 1 := min_le_left _ _
    have h2 : (0:ℚ) ≤ min 1 ((4 - h) / 4) := le_min (by norm_num) hx
    constructor <;> linarith
  · have h8 : (8:ℚ) < h := by
      rcases not_and_or.mp hin with h4 | h8
      · linarith
      · linarith
    have hx : (0:ℚ) ≤ (h - 8) / 4 := by linarith
    have h1 : min 1 ((h - 8) / 4) ≤ 1 := min_le_left _ _
    have h2 : (0:ℚ) ≤ min 1 ((h - 8) / 4) := le_min (by norm_num) hx
    constructor <;> linarith

theorem current_factor_nonneg_le_one (s : ℚ) :
    0 ≤ current_factor s ∧ current_factor s ≤ 1 := by
  simp only [current_factor, get_optimal_current_range]
  norm_num
  split_ifs with hin hlo
  · norm_num
  · norm_num
  · have hmax : (1.73:ℚ) < s := by
      rcases not_and_or.mp hin with h4 | h8
      · linarith
      · linarith
    have hx : (0:ℚ) ≤ (s - 1.73) / 2 := by linarith
    have h1 : min 1 ((s - 1.73) / 2) ≤ 1 := min_le_left _ _
    have h2 : (0:ℚ) ≤ min 1 ((s - 1.73) / 2) := le_min (by norm_num) hx
    constructor <;> linarith

theorem wind_factor_nonneg_le_one (s : ℚ) : 0 ≤ wind_factor s ∧ wind_factor s ≤ 1 := by
  simp only [wind_factor, get_optimal_wind_range]
  norm_num
  split_ifs with hin hlo
  · norm_num
  · norm_num
  · have hmax : (10:ℚ) < s := by
      rcases not_and_or.mp hin with h4 | h8
      · linarith
      · linarith
    have hx : (0:ℚ) ≤ (s - 10) / 10 := by linarith
    have h1 : min 1 ((s - 10) / 10) ≤ 1 := min_le_left _ _
    have h2 : (0:ℚ) ≤ min 1 ((s - 10) / 10) := le_min (by norm_num) hx
    constructor <;> linarith

theorem ferry_factor_nonneg_le_one (m : Option ℤ) :
    0 ≤ ferry_factor_of m ∧ ferry_factor_of m ≤ 1 := by
  rcases m with _ | m
  · constructor <;> norm_num [ferry_factor_of]
  · simp only [ferry_factor_of]
    split_ifs <;> constructor <;> norm_num

theorem rating_of_thresholds (s : ℚ) :
    (s ≥ 0.8 → rating_of s = "optimal") ∧
    (0.6 ≤ s ∧ s < 0.8 → rating_of s = "acceptable") ∧
    (s < 0.6 → rating_of s = "not_recommended") := by
  refine ⟨fun hs => ?_, fun hs => ?_, fun hs => ?_⟩
  · simp only [rating_of]
    rw [if_pos hs]
  · simp only [rating_of]
    rw [if_neg (by intro h; linarith [hs.2]), if_pos (by linarith [hs.1])]
  · simp only [rating_of]
    rw [if_neg (by intro h; linarith), if_neg (by intro h; linarith)]

theorem tide_factor_eq_tideFactorSpec (h : ℚ) : tide_factor h = tideFactorSpec h := by
  simp only [tide_factor, tideFactorSpec, get_optimal_tide_range]
  norm_num
  by_cases h10 : 10 < h
  · rw [if_pos h10, if_pos h10]
  · rw [if_neg h10, if_neg h10]
    by_cases hin : 4 ≤ h ∧ h ≤ 8
    · rw [if_pos hin, if_pos hin]
    · rw [if_neg hin, if_neg hin]
      by_cases hlo : h < 4
      · rw [if_pos hlo, if_pos hlo]
      · rw [if_neg hlo, if_neg hlo]

theorem weighted_score_bounds (a b c : ℚ) (m : Option ℤ) :
    0 ≤ tide_factor a * 0.35 + current_factor b * 0.3 + wind_factor c * 0.25 +
        ferry_factor_of m * 0.1 ∧
    tide_factor a * 0.35 + current_factor b * 0.3 + wind_factor c * 0.25 +
        ferry_factor_of m * 0.1 ≤ 1 := by
  obtain ⟨h1, h2⟩ := tide_factor_nonneg_le_one a
  obtain ⟨h3, h4⟩ := current_factor_nonneg_le_one b
  obtain ⟨h5, h6⟩ := wind_factor_nonneg_le_one c
  obtain ⟨h7, h8⟩ := ferry_factor_nonneg_le_one m
  constructor <;> nlinarith

theorem processHour_emit {now : Timestamp} {tide : List TideSample}
    {current : List CurrentSample} {ferry : List FerryDeparture}
    {weather : List WeatherSample} {hour : ℕ} {r : HourlyRec}
    (h : processHour now tide current ferry weather hour = some (some r)) :
    r.hour = hour ∧
    r.start_time = hhmm hour ∧
    r.end_time = hhmm ((hour + 1) % 24) ∧
    (∃ q, r.tide_height = formatFixed1 q) ∧
    (∃ q, r.current_speed = formatFixed1 q) ∧
    (∃ q, r.wind_speed = formatFixed1 q) ∧
    0 ≤ r.score ∧ r.score ≤ 1 ∧
    r.rating = rating_of r.score := by
  simp only [processHour] at h
  split at h
  · exact absurd h (by simp)
  · split at h
    · exact absurd h (by simp)
    · split at h
      · exact absurd h (by simp)
      · split at h
        · exact absurd h (by simp)
        · exact absurd h (by simp)
        · simp only [Option.some.injEq] at h
          subst h
          exact ⟨rfl, rfl, rfl, ⟨_, rfl⟩, ⟨_, rfl⟩, ⟨_, rfl⟩,
            (weighted_score_bounds _ _ _ _).1, (weighted_score_bounds _ _ _ _).2, rfl⟩

theorem runHours_mem {now : Timestamp} {tide : List TideSample}
    {current : List CurrentSample} {ferry : List FerryDeparture}
    {weather : List WeatherSample} :
    ∀ {hs : List ℕ} {l : List HourlyRec} {r : HourlyRec},
      runHours now tide current ferry weather hs = some l → r ∈ l →
      ∃ h, h ∈ hs ∧ processHour now tide current ferry weather h = some (some r) := by
  intro hs
  induction hs with
  | nil =>
    intro l r hl hr
    simp only [runHours, Option.some.injEq] at hl
    subst hl
    cases hr
  | cons h hs ih =>
    intro l r hl hr
    simp only [runHours] at hl
    split at hl
    · exact absurd hl (by simp)
    · obtain ⟨g, hg, he⟩ := ih hl hr
      exact ⟨g, List.mem_cons_of_mem h hg, he⟩
    · split at hl
      · exact absurd hl (by simp)
      · simp only [Option.some.injEq] at hl
        subst hl
        rcases List.mem_cons.mp hr with rfl | hr2
        · refine ⟨h, List.mem_cons_self h hs, ?_⟩
          assumption
        · obtain ⟨g, hg, he⟩ := ih (by assumption) hr2
          exact ⟨g, List.mem_cons_of_mem h hg, he⟩

theorem runHours_total {now : Timestamp} {tide : List TideSample}
    {current : List CurrentSample} {ferry : List FerryDeparture}
    {weather : List WeatherSample}
    (hcrash : ∀ h : ℕ, processHour now tide current ferry weather h ≠ none) :
    ∀ hs : List ℕ, ∃ l, runHours now tide current ferry weather hs = some l := by
  intro hs
  induction hs with
  | nil => exact ⟨[], rfl⟩
  | cons h hs ih =>
    obtain ⟨l, hl⟩ := ih
    rcases hp : processHour now tide current ferry weather h with _ | o
    · exact absurd hp (hcrash h)
    · rcases o with _ | r
      · exact ⟨l, by simp only [runHours, hp]; exact hl⟩
      · exact ⟨r :: l, by simp only [runHours, hp, hl]⟩

theorem processHour_no_crash {now : Timestamp} {tide : List TideSample}
    {current : List CurrentSample} {ferry : List FerryDeparture}
    {weather : List WeatherSample} (hour : ℕ)
    (htide : tide ≠ []) (hweather : weather ≠ []) :
    processHour now tide current ferry weather hour ≠ none := by
  rcases tide with _ | ⟨t0, ts⟩
  · exact absurd rfl htide
  rcases weather with _ | ⟨w0, ws⟩
  · exact absurd rfl hweather
  intro hcon
  simp only [processHour] at hcon
  split at hcon
  · simp_all
  · split at hcon
    · exact absurd hcon (by simp)
    · split at hcon
      · exact absurd hcon (by simp)
      · split at hcon
        · rename_i heq
          split at heq
          · exact absurd heq (by simp)
          · split at heq
            · rename_i hpm
              simp [pyMinBy] at hpm
            · split at heq <;> exact absurd heq (by simp)
        · exact absurd hcon (by simp)
        · exact absurd hcon (by simp)

theorem processHour_skip {now : Timestamp} {tide : List TideSample}
    {current : List CurrentSample} {ferry : List FerryDeparture}
    {weather : List WeatherSample} {hour : ℕ} (htide : tide ≠ [])
    (hskip : (tide.filter fun s => s.time.hour == hour) = [] ∨
             (current.filter fun s => s.time.hour == hour) = []) :
    processHour now tide current ferry weather hour = some none := by
  rcases tide with _ | ⟨t0, ts⟩
  · exact absurd rfl htide
  simp only [processHour]
  split
  · rename_i heq
    exact absurd heq (by simp)
  · rcases hskip with hf | hc
    · split
      · rfl
      · rename_i heq
        rw [hf] at heq
        exact absurd heq (by simp)
    · split
      · rfl
      · split
        · rfl
        · rename_i heq
          rw [hc] at heq
          exact absurd heq (by simp)

theorem processHour_wall_clock {now1 now2 : Timestamp} (hday : now1.day = now2.day)
    (hdom : now1.dom = now2.dom) (tide : List TideSample) (current : List CurrentSample)
    (ferry : List FerryDeparture) (weather : List WeatherSample) (hour : ℕ) :
    processHour now1 tide current ferry weather hour =
      processHour now2 tide current ferry weather hour := by
  have hq : ferryQueryTime now1 = ferryQueryTime now2 := by
    funext h
    simp [ferryQueryTime, hday, hdom]
  simp only [processHour, hq]

theorem runHours_wall_clock {now1 now2 : Timestamp} (hday : now1.day = now2.day)
    (hdom : now1.dom = now2.dom) (tide : List TideSample) (current : List CurrentSample)
    (ferry : List FerryDeparture) (weather : List WeatherSample) :
    ∀ hs : List ℕ, runHours now1 tide current ferry weather hs =
      runHours now2 tide current ferry weather hs := by
  intro hs
  induction hs with
  | nil => rfl
  | cons h hs ih =>
    simp only [runHours]
    rw [processHour_wall_clock hday hdom tide current ferry weather h, ih]

/-! ### Claims -/

/-- C1: every emitted recommendation has `hour ∈ [0,23]`, `score ∈ [0,1]`,
and a rating consistent with the thresholds applied to the score:
`score ≥ 0.8 → "optimal"`, `0.6 ≤ score < 0.8 → "acceptable"`,
`score < 0.6 → "not_recommended"`. -/
theorem claim_C1_hour_score_rating (now : Timestamp) (tide_data : Option (List TideSample))
    (current_data : Option (List CurrentSample)) (ferry_data : List FerryDeparture)
    (weather_data : Option (List WeatherSample)) (l : List HourlyRec) (r : HourlyRec)
    (hl : get_launch_recommendations now tide_data current_data ferry_data weather_data =
      some l) (hr : r ∈ l) :
    r.hour ≤ 23 ∧ 0 ≤ r.score ∧ r.score ≤ 1 ∧
    (r.score ≥ 0.8 → r.rating = "optimal") ∧
    (0.6 ≤ r.score ∧ r.score < 0.8 → r.rating = "acceptable") ∧
    (r.score < 0.6 → r.rating = "not_recommended") := by
  rcases tide_data with _ | tide <;> rcases current_data with _ | current <;>
    rcases weather_data with _ | weather <;>
    simp only [get_launch_recommendations, Option.some.injEq] at hl
  all_goals try (subst hl; cases hr)
  split_ifs at hl with hfe
  · simp only [Option.some.injEq] at hl
    subst hl
    cases hr
  · obtain ⟨h, hh, he⟩ := runHours_mem hl hr
    obtain ⟨hhour, -, -, -, -, -, hs0, hs1, hrat⟩ := processHour_emit he
    have h24 : h < 24 := List.mem_range.mp hh
    obtain ⟨ho, ha, hn⟩ := rating_of_thresholds r.score
    exact ⟨by omega, hs0, hs1, fun hx => hrat.trans (ho hx), fun hx => hrat.trans (ha hx),
      fun hx => hrat.trans (hn hx)⟩

/-- C1 witness: the demo day run; the engine returns `some demoOut` with
member `demoRec1`. -/
theorem claim_C1_witness :
    demoRec1.hour ≤ 23 ∧ 0 ≤ demoRec1.score ∧ demoRec1.score ≤ 1 ∧
    (demoRec1.score ≥ 0.8 → demoRec1.rating = "optimal") ∧
    (0.6 ≤ demoRec1.score ∧ demoRec1.score < 0.8 → demoRec1.rating = "acceptable") ∧
    (demoRec1.score < 0.6 → demoRec1.rating = "not_recommended") :=
  claim_C1_hour_score_rating demoNow (some demoTide) (some demoCurrent) demoFerry
    (some demoWeather) demoOut demoRec1 rfl (List.mem_cons_self demoRec1 demoOut.tail)

/-- C2: the tide factor is 1 on [4,8], falls off by `1 − min(1, d/4)`
outside (`d` the overshoot beyond the nearer bound), is forced to 0 only
strictly above 10, and at height exactly 10 equals the falloff value 1/2. -/
theorem claim_C2_tide_factor :
    (∀ h : ℚ, tide_factor h = tideFactorSpec h) ∧ tide_factor 10 = 1/2 :=
  ⟨tide_factor_eq_tideFactorSpec,
    by norm_num [tide_factor, get_optimal_tide_range, min_def]⟩

/-- C3: `ferry_time_proximity` returns the minimum non-negative minute
delta and its direction (first in input order on ties); failing that, the
earliest departure with day-of-month strictly beyond the query's, with its
(negative) delta; failing that — and on an empty schedule — `(none, none)`. -/
theorem claim_C3_ferry_proximity_spec (time : Timestamp) (sched : List FerryDeparture) :
    ferry_time_proximity time sched = ferrySpec time sched :=
  ferry_prox_spec_eq time sched

/-- C4: with a non-`None` but empty weather series and tide/current
samples present for hour 6, the engine raises (`min()` over an empty
sequence, modelled as `none`) instead of skipping the hour. -/
theorem claim_C4_empty_weather_raises :
    get_launch_recommendations demoNow (some demoTide) (some demoCurrent) demoFerry
      (some ([] : List WeatherSample)) = none := by
  decide

/-- C5 counterexample: identical four inputs, two different wall-clock
dates (`datetime.now()` read inside `ferry_time_proximity`), different
outputs — the engine is not a pure function of its four inputs alone. -/
theorem claim_C5_cex :
    get_launch_recommendations nowSameDay (some wallTide) (some wallCurrent) wallFerry
        (some wallWeather) ≠
      get_launch_recommendations nowNextDay (some wallTide) (some wallCurrent) wallFerry
        (some wallWeather) := by
  intro h
  exact absurd (congrArg (fun o => (o.getD []).headI.ferry_status) h) (by decide)

/-- C5 amended: the engine is deterministic given its four inputs and the
wall-clock calendar date: two calls with identical inputs whose
`datetime.now()` reads fall on the same date produce identical lists
(the time of day of the wall clock is irrelevant). -/
theorem claim_C5_deterministic_given_date (now1 now2 : Timestamp)
    (tide_data : Option (List TideSample)) (current_data : Option (List CurrentSample))
    (ferry_data : List FerryDeparture) (weather_data : Option (List WeatherSample))
    (hday : now1.day = now2.day) (hdom : now1.dom = now2.dom) :
    get_launch_recommendations now1 tide_data current_data ferry_data weather_data =
      get_launch_recommendations now2 tide_data current_data ferry_data weather_data := by
  rcases tide_data with _ | tide <;> rcases current_data with _ | current <;>
    rcases weather_data with _ | weather <;> simp only [get_launch_recommendations]
  split_ifs with hf
  · rfl
  · exact runHours_wall_clock hday hdom tide current ferry_data weather (List.range 24)

/-- C5 witness: two wall-clock readings five and a half hours apart on the
same date give identical outputs. -/
theorem claim_C5_witness :
    nowSameDay.day = nowSameDayLater.day ∧ nowSameDay.dom = nowSameDayLater.dom ∧
    get_launch_recommendations nowSameDay (some wallTide) (some wallCurrent) wallFerry
        (some wallWeather) =
      get_launch_recommendations nowSameDayLater (some wallTide) (some wallCurrent) wallFerry
        (some wallWeather) :=
  ⟨rfl, rfl, claim_C5_deterministic_given_date nowSameDay nowSameDayLater (some wallTide)
    (some wallCurrent) wallFerry (some wallWeather) rfl rfl⟩

/-- C6 counterexample: with an entirely empty (but non-`None`) tide
series, hour 0 has no tide sample, yet the engine raises (the first tide
timestamp is read before the per-hour check) — so "no error is raised"
fails as universally stated. -/
theorem claim_C6_cex :
    ¬ (∀ H : ℕ, H < 24 →
        ((([] : List TideSample).filter fun s => s.time.hour == H) = [] ∨
         (demoCurrent.filter fun s => s.time.hour == H) = []) →
        ∃ l, get_launch_recommendations demoNow (some ([] : List TideSample))
              (some demoCurrent) demoFerry (some demoWeather) = some l ∧
             ∀ r ∈ l, r.hour ≠ H) := by
  intro hclaim
  obtain ⟨l, hl, -⟩ := hclaim 0 (by norm_num) (Or.inl rfl)
  have hnone : get_launch_recommendations demoNow (some ([] : List TideSample))
      (some demoCurrent) demoFerry (some demoWeather) = none := by decide
  rw [hnone] at hl
  cases hl

/-- C6 amended: provided the tide series is non-empty (an empty one makes
the engine raise, claim C8) and the weather series is non-empty (claim
C4), an hour `H` with no tide sample or no current sample produces no
recommendation and no error: the engine returns a list with no entry for
`H`. -/
theorem claim_C6_hour_gap_skipped (now : Timestamp) (tide : List TideSample)
    (current : List CurrentSample) (ferry : List FerryDeparture)
    (weather : List WeatherSample) (H : ℕ) (htide : tide ≠ []) (hweather : weather ≠ [])
    (hgap : (tide.filter fun s => s.time.hour == H) = [] ∨
            (current.filter fun s => s.time.hour == H) = []) :
    ∃ l, get_launch_recommendations now (some tide) (some current) ferry (some weather) =
        some l ∧ ∀ r ∈ l, r.hour ≠ H := by
  simp only [get_launch_recommendations]
  by_cases hf : ferry.isEmpty
  · rw [if_pos hf]
    exact ⟨[], rfl, by simp⟩
  · rw [if_neg hf]
    obtain ⟨l, hl⟩ := runHours_total
      (fun h => processHour_no_crash h htide hweather) (List.range 24)
    refine ⟨l, hl, fun r hr hH => ?_⟩
    obtain ⟨h, hh, he⟩ := runHours_mem hl hr
    obtain ⟨hhour, -⟩ := processHour_emit he
    have hHh : h = H := by rw [← hhour, hH]
    rw [hHh, processHour_skip htide hgap] at he
    cases he

/-- C6 witness: on the demo inputs hour 3 has no tide sample; the run
succeeds and contains no entry for hour 3. -/
theorem claim_C6_witness :
    demoTide ≠ [] ∧ demoWeather ≠ [] ∧
    (demoTide.filter fun s => s.time.hour == 3) = [] ∧
    ∃ l, get_launch_recommendations demoNow (some demoTide) (some demoCurrent) demoFerry
        (some demoWeather) = some l ∧ ∀ r ∈ l, r.hour ≠ 3 :=
  ⟨by decide, by decide, by decide,
    claim_C6_hour_gap_skipped demoNow demoTide demoCurrent demoFerry demoWeather 3
      (by decide) (by decide) (Or.inl (by decide))⟩

/-- C7: a missing input series — `None` tide, current or weather, or a
falsy (empty) ferry list — makes the engine return the empty list, not a
partial list and not an exception. -/
theorem claim_C7_missing_series (now : Timestamp) (tide_data : Option (List TideSample))
    (current_data : Option (List CurrentSample)) (ferry_data : List FerryDeparture)
    (weather_data : Option (List WeatherSample))
    (habs : tide_data = none ∨ current_data = none ∨ ferry_data = [] ∨
      weather_data = none) :
    get_launch_recommendations now tide_data current_data ferry_data weather_data =
      some [] := by
  rcases habs with h | h | h | h
  · subst h
    rcases current_data with _ | c <;> rcases weather_data with _ | w <;> rfl
  · subst h
    rcases tide_data with _ | t <;> rcases weather_data with _ | w <;> rfl
  · subst h
    rcases tide_data with _ | t <;> rcases current_data with _ | c <;>
      rcases weather_data with _ | w <;> rfl
  · subst h
    rcases tide_data with _ | t <;> rcases current_data with _ | c <;> rfl

/-- C7 witness: `None` current data yields the empty list. -/
theorem claim_C7_witness :
    get_launch_recommendations demoNow (some demoTide) none demoFerry (some demoWeather) =
      some [] :=
  claim_C7_missing_series demoNow (some demoTide) none demoFerry (some demoWeather)
    (Or.inr (Or.inl rfl))

/-- C8: a non-`None` tide frame with zero rows (other inputs present)
makes the engine raise — `tide_data['time'].iloc[0]` is evaluated before
the per-hour emptiness check — rather than return an empty list. -/
theorem claim_C8_empty_tide_frame_raises (now : Timestamp) (current : List CurrentSample)
    (ferry : List FerryDeparture) (weather : List WeatherSample) (hf : ferry ≠ []) :
    get_launch_recommendations now (some []) (some current) ferry (some weather) = none := by
  rcases ferry with _ | ⟨g, gs⟩
  · exact absurd rfl hf
  · rfl

/-- C8 witness: the demo inputs with the tide frame emptied. -/
theorem claim_C8_witness :
    get_launch_recommendations demoNow (some ([] : List TideSample)) (some demoCurrent)
      demoFerry (some demoWeather) = none :=
  claim_C8_empty_tide_frame_raises demoNow demoCurrent demoFerry demoWeather (by decide)

/-- C9: whenever the next-day fallback fires (no departure has a
non-negative delta, some departure's day-of-month exceeds the query's),
the returned minutes are strictly negative, the engine's ferry factor is
0.5 (negative < 15), and the status text is the "Caution" message with a
negative minute count. -/
theorem claim_C9_next_day_fallback (now : Timestamp) (hour : ℕ)
    (sched : List FerryDeparture)
    (hneg : ∀ f ∈ sched,
      f.departure_time.toMinutes - (ferryQueryTime now hour).toMinutes < 0)
    (htom : (sched.filter fun f =>
      decide ((ferryQueryTime now hour).dom < f.departure_time.dom)) ≠ []) :
    ∃ m d, ferry_time_proximity (ferryQueryTime now hour) sched = (some m, some d) ∧
      m < 0 ∧ ferry_factor_of (some m) = 0.5 ∧
      ferry_status_of (some m) (some d) =
        "Caution: " ++ d ++ " ferry in " ++ toString m ++ " minutes" := by
  have hup : upcomingPairs (ferryQueryTime now hour).toMinutes sched = [] := by
    simp only [upcomingPairs, deltaPairs]
    apply List.filter_eq_nil_iff.mpr
    intro p hp
    obtain ⟨f, hf, rfl⟩ := List.mem_map.mp hp
    have := hneg f hf
    simp only [decide_eq_true_eq]
    omega
  rcases hfm : firstMinBy (fun f => f.departure_time.toMinutes)
      (sched.filter fun f =>
        decide ((ferryQueryTime now hour).dom < f.departure_time.dom)) with _ | e
  · rw [firstMinBy_eq_none] at hfm
    exact absurd hfm htom
  · have hmem : e ∈ sched :=
      (List.mem_filter.mp (firstMinBy_mem _ _ e hfm)).1
    have hneg_e := hneg e hmem
    refine ⟨e.departure_time.toMinutes - (ferryQueryTime now hour).toMinutes, e.direction,
      ?_, hneg_e, ?_, ?_⟩
    · rw [ferry_prox_spec_eq]
      simp only [ferrySpec, hup, firstMinBy, hfm]
    · simp only [ferry_factor_of]
      rw [if_pos (by omega)]
    · simp only [ferry_status_of]
      rw [if_pos (by omega)]

/-- C9 witness: a schedule built for May 30 (day-of-month 30) queried on
June 28 (day-of-month 28): every delta is negative and the fallback fires. -/
theorem claim_C9_witness :
    (∀ f ∈ staleFerry,
      f.departure_time.toMinutes - (ferryQueryTime staleNow 10).toMinutes < 0) ∧
    (staleFerry.filter fun f =>
      decide ((ferryQueryTime staleNow 10).dom < f.departure_time.dom)) ≠ [] ∧
    ∃ m d, ferry_time_proximity (ferryQueryTime staleNow 10) staleFerry =
        (some m, some d) ∧ m < 0 ∧ ferry_factor_of (some m) = 0.5 ∧
      ferry_status_of (some m) (some d) =
        "Caution: " ++ d ++ " ferry in " ++ toString m ++ " minutes" :=
  ⟨by decide, by decide,
    claim_C9_next_day_fallback staleNow 10 staleFerry (by decide) (by decide)⟩

/-- C10: in every emitted recommendation the tide_height, current_speed
and wind_speed fields are one-decimal formatted strings, start_time is
"HH:MM" for the hour, end_time is "HH:MM" for (hour+1) mod 24 — hour 23
wraps to "00:00" — while score stays an unformatted rational. -/
theorem claim_C10_output_fields (now : Timestamp) (tide_data : Option (List TideSample))
    (current_data : Option (List CurrentSample)) (ferry_data : List FerryDeparture)
    (weather_data : Option (List WeatherSample)) (l : List HourlyRec) (r : HourlyRec)
    (hl : get_launch_recommendations now tide_data current_data ferry_data weather_data =
      some l) (hr : r ∈ l) :
    (∃ q, r.tide_height = formatFixed1 q) ∧
    (∃ q, r.current_speed = formatFixed1 q) ∧
    (∃ q, r.wind_speed = formatFixed1 q) ∧
    r.start_time = hhmm r.hour ∧
    r.end_time = hhmm ((r.hour + 1) % 24) ∧
    (r.hour = 23 → r.end_time = "00:00") := by
  rcases tide_data with _ | tide <;> rcases current_data with _ | current <;>
    rcases weather_data with _ | weather <;>
    simp only [get_launch_recommendations, Option.some.injEq] at hl
  all_goals try (subst hl; cases hr)
  split_ifs at hl with hfe
  · simp only [Option.some.injEq] at hl
    subst hl
    cases hr
  · obtain ⟨h, hh, he⟩ := runHours_mem hl hr
    obtain ⟨hhour, hst, hend, hth, hcs, hws, -⟩ := processHour_emit he
    refine ⟨hth, hcs, hws, ?_, ?_, ?_⟩
    · rw [hst, hhour]
    · rw [hend, hhour]
    · intro h23
      have hHh : h = 23 := by rw [← hhour, h23]
      rw [hend, hHh]
      rfl

/-- C10 witness: the late-night run has its sample at hour 23; its single
recommendation `lateRec1` satisfies all the formatting facts. -/
theorem claim_C10_witness :
    (∃ q, lateRec1.tide_height = formatFixed1 q) ∧
    (∃ q, lateRec1.current_speed = formatFixed1 q) ∧
    (∃ q, lateRec1.wind_speed = formatFixed1 q) ∧
    lateRec1.start_time = hhmm lateRec1.hour ∧
    lateRec1.end_time = hhmm ((lateRec1.hour + 1) % 24) ∧
    (lateRec1.hour = 23 → lateRec1.end_time = "00:00") :=
  claim_C10_output_fields demoNow (some lateTide) (some lateCurrent) demoFerry
    (some lateWeather) lateOut lateRec1 rfl (List.mem_cons_self lateRec1 lateOut.tail)
